import Mathlib

/-!
Shallow embedding of the endless-driving game engine
(src/components/GameEngine.tsx, src/unnamed/part_000 App, part_001
types + leaderboardService).  JavaScript numbers are modelled as
rationals, the per-frame `render` callback as a pure `tick` function on an
explicit state record, and randomness (`Math.random()` calls) as explicit
rational inputs.  The constants module of the repository is not under
src/, so the track width fractions and the base speed are parameters of
the environment record; no claim depends on their concrete values.
-/

namespace FRun

/-- Variant tag of a road object (GameEngine.tsx RoadObject.type). -/
inductive ObjType
  | obstacle
  | coin
  | scenery
deriving DecidableEq, Repr

/-- RoadObject of src/unnamed/part_001: lane coordinate x (about -2..2),
depth coordinate y (grows toward the viewer), base size, color, tag. -/
structure RoadObject where
  x : ℚ
  y : ℚ
  initialWidth : ℚ
  initialHeight : ℚ
  color : String
  type : ObjType
deriving DecidableEq, Repr

/-- One road-line marker (GameEngine.tsx roadLines entries, depth only). -/
structure RoadLine where
  y : ℚ
deriving DecidableEq, Repr

/-- The mutable game state held in stateRef.current of GameEngine.tsx. -/
structure GState where
  carX : ℚ
  roadCurvature : ℚ
  curveDirection : ℚ
  curveTimer : ℚ
  score : ℚ
  coins : ℕ
  speed : ℚ
  obstacles : List RoadObject
  coinsList : List RoadObject
  scenery : List RoadObject
  roadLines : List RoadLine
  keys : List (String × Bool)
  touchX : Option ℚ
  horizonY : ℚ
deriving DecidableEq, Repr

/-- Viewport size plus the constants imported from the missing constants
module (TRACK_TOP_WIDTH_RATIO, TRACK_BOTTOM_WIDTH_RATIO, ROAD_SPEED_BASE):
kept abstract, no claim fixes their values. -/
structure Env where
  gameWidth : ℚ
  gameHeight : ℚ
  trackTopWidth : ℚ
  trackBottomWidth : ℚ
  roadSpeedBase : ℚ
deriving DecidableEq, Repr

/-- The Math.random() draws one call of render can consume, passed in
explicitly (rolls are meant to lie in [0, 1), but nothing assumes it). -/
structure RandInput where
  obsSpawnRoll : ℚ
  obsLaneRoll : ℚ
  obsColorRoll : ℚ
  coinSpawnRoll : ℚ
  coinLaneRoll : ℚ
  timerRoll : ℚ
  dirRoll : ℚ
deriving DecidableEq, Repr

/-- Result of getProjection (screen position, scaled size, z order). -/
structure Proj where
  x : ℚ
  y : ℚ
  width : ℚ
  height : ℚ
  zIndex : ℚ
deriving DecidableEq, Repr

/-- Screen-space bounding box returned by drawPlayer. -/
structure Box where
  x : ℚ
  y : ℚ
  width : ℚ
  height : ℚ
deriving DecidableEq, Repr

/-- perspective = (obj.y - horizonY) / (gameHeight - horizonY), the
normalized depth of GameEngine.tsx getProjection. -/
def perspectiveOf (env : Env) (horizonY y : ℚ) : ℚ :=
  (y - horizonY) / (env.gameHeight - horizonY)

/-- Linear interpolation of the road width at a given perspective
(roadWidthAtY of getProjection). -/
def roadWidthAt (env : Env) (p : ℚ) : ℚ :=
  env.gameWidth * env.trackTopWidth
    + env.gameWidth * (env.trackBottomWidth - env.trackTopWidth) * p

/-- getProjection of GameEngine.tsx: cull when perspective is outside
[0, 1.2], otherwise scale size by perspective and bend the screen x by
the current curvature, weighted toward the horizon. -/
def getProjection (env : Env) (roadCurvature : ℚ) (obj : RoadObject)
    (horizonY : ℚ) : Option Proj :=
  let perspective := perspectiveOf env horizonY obj.y
  if perspective < 0 ∨ perspective > 6/5 then none
  else
    let scale := perspective
    let scaledWidth := obj.initialWidth * scale
    let scaledHeight := obj.initialHeight * scale
    let roadWidthAtY := roadWidthAt env perspective
    let curveOffsetAtY := roadCurvature * (1 - perspective)
    let screenX := env.gameWidth / 2 + roadWidthAtY * obj.x * (1/4)
      + curveOffsetAtY
    some { x := screenX, y := obj.y, width := scaledWidth,
           height := scaledHeight, zIndex := perspective }

/-- Clamp of the lateral car position done at the top of drawPlayer:
Math.max(-1.8, Math.min(1.8, carX)). -/
def clampCarX (x : ℚ) : ℚ :=
  max (-(9/5)) (min (9/5) x)

/-- Screen bounding box of the player as drawPlayer computes and returns
it, from the already clamped car position. -/
def playerBox (env : Env) (carXClamped : ℚ) : Box :=
  { x := env.gameWidth / 2
      + carXClamped * (env.gameWidth * env.trackBottomWidth) * (3/50)
    y := env.gameHeight - 80
    width := 100
    height := 45 }

/-- Keyboard lookup: a key missing from the map reads as false, matching
the undefined lookup on the plain JS object stateRef.current.keys. -/
def getKey (keys : List (String × Bool)) (k : String) : Bool :=
  match keys.lookup k with
  | some b => b
  | none => false

/-- Obstacle hit test of the render collision block: projected, inside the
20-pixel vertical band around the player, and overlapping horizontally
with the player box shrunk by the hitBoxPadding of 20 on each side. -/
def obsHit (env : Env) (player : Box) (roadCurvature horizonY : ℚ)
    (obs : RoadObject) : Bool :=
  match getProjection env roadCurvature obs horizonY with
  | none => false
  | some proj =>
    decide (proj.y > player.y - 20) && decide (proj.y < player.y + 20) &&
    decide (player.x + player.width/2 - 20 > proj.x - proj.width/2) &&
    decide (player.x - player.width/2 + 20 < proj.x + proj.width/2)

/-- Coin hit test of the render coin block: projected, inside the wider
30-pixel vertical band, and overlapping the un-padded player box. -/
def coinHit (env : Env) (player : Box) (roadCurvature horizonY : ℚ)
    (coin : RoadObject) : Bool :=
  match getProjection env roadCurvature coin horizonY with
  | none => false
  | some proj =>
    decide (proj.y > player.y - 30) && decide (proj.y < player.y + 30) &&
    decide (player.x + player.width/2 > proj.x - proj.width/2) &&
    decide (player.x - player.width/2 < proj.x + proj.width/2)

/-- The reverse-index splice loop of the coin collision block: walking the
list backwards and removing each hit coin as it is found; written as
structural recursion in which the tail (the later indices) is processed
first.  Returns the surviving list and the number of coins resolved. -/
def coinPass (hit : RoadObject → Bool) : List RoadObject →
    List RoadObject × ℕ
  | [] => ([], 0)
  | c :: rest =>
    let r := coinPass hit rest
    if hit c then (r.1, r.2 + 1) else (c :: r.1, r.2)

/-- Player box of this tick, from the clamped car position (drawPlayer). -/
def playerStep (env : Env) (s : GState) : Box :=
  playerBox env (clampCarX s.carX)

/-- Road-line update of render step 4: advance each marker by speed and
wrap it back to the horizon once past the bottom edge. -/
def roadLinesStep (env : Env) (s : GState) : List RoadLine :=
  s.roadLines.map fun l =>
    let y := l.y + s.speed
    if y > env.gameHeight then { y := s.horizonY } else { y := y }

/-- The three enemy car colors the spawner picks from. -/
def obsColors : List String :=
  ["#2563eb", "#db2777", "#9333ea"]

/-- Obstacle list after one tick's advance, spawn and cleanup phases
(render steps 5, 7 and 8). -/
def obstaclesStep (env : Env) (r : RandInput) (s : GState) :
    List RoadObject :=
  let l := s.obstacles.map fun o => { o with y := o.y + s.speed }
  let l := if r.obsSpawnRoll < 1/50 ∧ l.length < 5 then
      l ++ [{ x := r.obsLaneRoll * 4 - 2, y := s.horizonY - 50,
              initialWidth := 80, initialHeight := 40,
              color := obsColors.getD (⌊r.obsColorRoll * 3⌋).toNat "",
              type := ObjType.obstacle }]
    else l
  l.filter fun o => decide (o.y < env.gameHeight + 100)

/-- Coin list after one tick's advance, spawn and cleanup phases, before
the coin collision pass (render steps 5, 7 and 8). -/
def coinsStep1 (env : Env) (r : RandInput) (s : GState) :
    List RoadObject :=
  let l := s.coinsList.map fun o => { o with y := o.y + s.speed }
  let l := if r.coinSpawnRoll < 3/100 then
      l ++ [{ x := r.coinLaneRoll * 4 - 2, y := s.horizonY - 50,
              initialWidth := 40, initialHeight := 40,
              color := "gold", type := ObjType.coin }]
    else l
  l.filter fun o => decide (o.y < env.gameHeight + 100)

/-- Scenery list after one tick: advance by speed, then recycle anything
past gameHeight + 200 back to 200 above the horizon (render steps 5, 8). -/
def sceneryStep (env : Env) (s : GState) : List RoadObject :=
  (s.scenery.map fun o => { o with y := o.y + s.speed }).map fun o =>
    if o.y > env.gameHeight + 200 then { o with y := s.horizonY - 200 }
    else o

/-- The obstacle collision scan of render step 9: some obstacle of this
tick passes the hit test against this tick's player box, at the curvature
still unchanged from the previous tick. -/
def collides (env : Env) (r : RandInput) (s : GState) : Bool :=
  (obstaclesStep env r s).any
    (obsHit env (playerStep env s) s.roadCurvature s.horizonY)

/-- Outcome of the coin collision pass of this tick. -/
def coinRes (env : Env) (r : RandInput) (s : GState) :
    List RoadObject × ℕ :=
  coinPass (coinHit env (playerStep env s) s.roadCurvature s.horizonY)
    (coinsStep1 env r s)

/-- Coin count after the coin pass. -/
def coinsAfter (env : Env) (r : RandInput) (s : GState) : ℕ :=
  s.coins + (coinRes env r s).2

/-- Score at the end of a surviving tick: 50 per resolved coin plus the
fixed per-tick increment of 0.5. -/
def scoreAfter (env : Env) (r : RandInput) (s : GState) : ℚ :=
  s.score + 50 * ((coinRes env r s).2 : ℚ) + 1/2

/-- Lateral keyboard input of render step 11 applied to a car position. -/
def carXAfterInput (s : GState) (c : ℚ) : ℚ :=
  let c := if getKey s.keys "ArrowLeft" || getKey s.keys "a" then c - 1/20
    else c
  if getKey s.keys "ArrowRight" || getKey s.keys "d" then c + 1/20 else c

/-- Curve timer countdown and retargeting of render step 12: decrement,
and on expiry draw a new duration in [100, 300) and a new direction. -/
def curveTimerStep (r : RandInput) (s : GState) : ℚ × ℚ :=
  let t := s.curveTimer - 1
  if t ≤ 0 then
    (r.timerRoll * 200 + 100, if r.dirRoll > 1/2 then 1 else -1)
  else (t, s.curveDirection)

/-- Exponential easing of the curvature toward its target:
curvature += (target - curvature) * 0.01. -/
def easeCurvature (c target : ℚ) : ℚ :=
  c + (target - c) * (1/100)

/-- An engine-to-host callback fired during a tick. -/
inductive Evt
  | gameOver (score : ℤ) (coins : ℕ)
  | scoreUpdate (score : ℤ) (coins : ℕ)
deriving DecidableEq, Repr

/-- What one call of render produces: the state it leaves behind, the
callbacks it fired, and whether it scheduled another frame. -/
structure TickOut where
  state : GState
  events : List Evt
  cont : Bool
deriving DecidableEq, Repr

/-- One call of the render callback of GameEngine.tsx as a pure function:
road lines, object advance, spawn, cleanup, the obstacle collision scan
with its early return, the coin pass, lateral input, curvature easing,
centrifugal pull and score accrual, in source order. -/
def tick (env : Env) (r : RandInput) (s : GState) : TickOut :=
  let afterDraw : GState :=
    { s with
      roadLines := roadLinesStep env s
      obstacles := obstaclesStep env r s
      coinsList := coinsStep1 env r s
      scenery := sceneryStep env s
      carX := clampCarX s.carX }
  if collides env r s then
    { state := afterDraw
      events := [Evt.gameOver s.score.floor s.coins]
      cont := false }
  else
    let res := coinRes env r s
    let ts := curveTimerStep r s
    let curv := easeCurvature s.roadCurvature (ts.2 * 200)
    let carX := carXAfterInput s (clampCarX s.carX) - curv * (1/10000)
    let score := scoreAfter env r s
    let coins := coinsAfter env r s
    { state :=
        { afterDraw with
          coinsList := res.1
          coins := coins
          score := score
          carX := carX
          curveTimer := ts.1
          curveDirection := ts.2
          roadCurvature := curv }
      events :=
        if score.floor.tmod 10 = 0 then [Evt.scoreUpdate score.floor coins]
        else []
      cont := true }

/-- The initial value given to stateRef.current when the component mounts
(the useRef literal of GameEngine.tsx). -/
def mountState : GState :=
  { carX := 0, roadCurvature := 0, curveDirection := 1, curveTimer := 0,
    score := 0, coins := 0, speed := 10, obstacles := [], coinsList := [],
    scenery := [], roadLines := [], keys := [], touchX := none,
    horizonY := 0 }

/-- The scenery pre-population loop of initGame: ten iterations, each
pushing one object on the left roadside (x = -2.5) and one on the right
(x = 2.5), at a random depth between horizon and horizon + gameHeight. -/
def sceneryInit (rnd : ℕ → ℚ) (horizonY gameHeight : ℚ) :
    List RoadObject :=
  (List.range 10).flatMap fun i =>
    [{ x := -(5/2), y := horizonY + rnd (2*i) * gameHeight,
       initialWidth := 400, initialHeight := 150, color := "#444",
       type := ObjType.scenery },
     { x := 5/2, y := horizonY + rnd (2*i+1) * gameHeight,
       initialWidth := 400, initialHeight := 150, color := "#444",
       type := ObjType.scenery }]

/-- initGame of GameEngine.tsx: spread of the previous state with the
listed fields overwritten (so curveDirection, curveTimer, keys and touchX
are carried over from the previous state), then the scenery loop. -/
def initGame (env : Env) (rnd : ℕ → ℚ) (s : GState) : GState :=
  let horizonY := env.gameHeight * (2/5)
  { s with
    carX := 0
    roadCurvature := 0
    score := 0
    coins := 0
    speed := env.roadSpeedBase
    obstacles := []
    coinsList := []
    scenery := sceneryInit rnd horizonY env.gameHeight
    roadLines := (List.range 12).map fun i =>
      { y := horizonY + i * (env.gameHeight - horizonY) / 12 }
    horizonY := horizonY }

/-- A running session: current state, whether the loop has stopped (the
game-over return deregisters the next frame), and the callbacks fired so
far in order. -/
structure Sess where
  st : GState
  over : Bool
  events : List Evt
deriving DecidableEq, Repr

/-- One scheduler slot: when the loop is stopped nothing runs any more,
otherwise the tick executes and its callbacks are appended. -/
def sessStep (env : Env) (r : RandInput) (ss : Sess) : Sess :=
  if ss.over then ss
  else
    let out := tick env r ss.st
    { st := out.state, over := !out.cont, events := ss.events ++ out.events }

/-- The session after n scheduler slots from a starting state. -/
def runSession (env : Env) (rs : ℕ → RandInput) (s0 : GState) :
    ℕ → Sess
  | 0 => { st := s0, over := false, events := [] }
  | n + 1 => sessStep env (rs n) (runSession env rs s0 n)

/-- Marks the terminal callback. -/
def isGameOverEvt : Evt → Bool
  | Evt.gameOver _ _ => true
  | _ => false

/-- States reachable from a session initialization (initGame applied to
the mount state) by any number of ticks, with arbitrary random draws. -/
inductive Reach (env : Env) : GState → Prop
  | init (rnd : ℕ → ℚ) : Reach env (initGame env rnd mountState)
  | step (r : RandInput) (s : GState) :
      Reach env s → Reach env (tick env r s).state

/-- A concrete environment used by the witnesses: 1000 x 600 viewport,
track width fractions 0.1 and 0.9, base speed 0. -/
def envW : Env :=
  { gameWidth := 1000, gameHeight := 600, trackTopWidth := 1/10,
    trackBottomWidth := 9/10, roadSpeedBase := 0 }

/-- Random draws that spawn nothing and keep direction 1. -/
def noRand : RandInput :=
  { obsSpawnRoll := 1, obsLaneRoll := 0, obsColorRoll := 0,
    coinSpawnRoll := 1, coinLaneRoll := 0, timerRoll := 1, dirRoll := 1 }

/-- A concrete state one obstacle away from the player: depth 520 with
speed 0 puts the projection 520 inside the vertical band around the
player y of 520, overlapping the padded player box. -/
def stCollide : GState :=
  { mountState with
    horizonY := 240, speed := 0,
    obstacles := [{ x := 0, y := 520, initialWidth := 80,
                    initialHeight := 40, color := "#2563eb",
                    type := ObjType.obstacle }] }

/-- A concrete state with two catchable coins ahead of the player and no
obstacle, used by witnesses: both projections fall in the coin band and
overlap the un-padded player box, so both resolve in one tick. -/
def stCoins : GState :=
  { mountState with
    horizonY := 240, speed := 0,
    coinsList := [{ x := 0, y := 510, initialWidth := 40,
                    initialHeight := 40, color := "gold",
                    type := ObjType.coin },
                  { x := 0, y := 530, initialWidth := 40,
                    initialHeight := 40, color := "gold",
                    type := ObjType.coin }] }

/-- The state a fresh session starts from in the concrete witness runs. -/
def stRun : GState :=
  initGame envW (fun _ => 0) mountState

/-- ScoreEntry of src/unnamed/part_001; the generated id and ISO date are
opaque to every claim, so they are parameters of addScore below. -/
structure ScoreEntry where
  id : ℕ
  name : String
  score : ℤ
  date : String
deriving DecidableEq, Repr

/-- Order used by the leaderboard sort comparator (b.score - a.score):
a comes before b when the score of b does not exceed the score of a. -/
def descBy (a b : ScoreEntry) : Prop :=
  b.score ≤ a.score

instance : DecidableRel descBy :=
  fun a b => inferInstanceAs (Decidable (b.score ≤ a.score))

instance : IsTotal ScoreEntry descBy :=
  ⟨fun a b => le_total b.score a.score⟩

instance : IsTrans ScoreEntry descBy :=
  ⟨fun _ _ _ hab hbc => le_trans hbc hab⟩

/-- name.toUpperCase().substring(0, 10) || "PILOTO" of addScore, written
on the character sequence of the string (JS strings are sequences; the
falsy-empty-string fallback becomes an emptiness test). -/
def storedName (name : String) : String :=
  let n : String := ⟨(name.data.map Char.toUpper).take 10⟩
  if n = "" then "PILOTO" else n

/-- addScore of leaderboardService (src/unnamed/part_001): push the new
entry, sort descending by score (a stable comparison sort, as JS sort
is), truncate to the maximum entry count, persist and return.  The cap,
the generated id and the date string are parameters; the persisted value
and the returned value are the same list. -/
def addScore (cap newId : ℕ) (now : String) (db : List ScoreEntry)
    (name : String) (score : ℤ) : List ScoreEntry :=
  ((db ++ [ScoreEntry.mk newId (storedName name) score now]).insertionSort
    descBy).take cap

end FRun

/-- C2: getProjection returns none exactly when
perspective = (y - horizon) / (gameHeight - horizon) is below 0 or above
1.2, and otherwise yields width and height scaled linearly by the
perspective and a screen x equal to the viewport center plus the
road-width-at-depth times the lane coordinate times 0.25 plus the
curvature weighted by (1 - perspective), the road width interpolating
linearly between the top and bottom width fractions of the viewport. -/
theorem FRun.c2_projection_spec (env : FRun.Env) (curv : ℚ)
    (obj : FRun.RoadObject) (horizonY : ℚ) :
    (FRun.getProjection env curv obj horizonY = none ↔
      FRun.perspectiveOf env horizonY obj.y < 0 ∨
      FRun.perspectiveOf env horizonY obj.y > 6/5) ∧
    (∀ p : FRun.Proj, FRun.getProjection env curv obj horizonY = some p →
      p.width = obj.initialWidth * FRun.perspectiveOf env horizonY obj.y ∧
      p.height = obj.initialHeight * FRun.perspectiveOf env horizonY obj.y ∧
      p.x = env.gameWidth / 2
        + (env.gameWidth * env.trackTopWidth
            + env.gameWidth * (env.trackBottomWidth - env.trackTopWidth)
              * FRun.perspectiveOf env horizonY obj.y)
          * obj.x * (1/4)
        + curv * (1 - FRun.perspectiveOf env horizonY obj.y)) := by
  constructor
  · unfold FRun.getProjection
    by_cases h : FRun.perspectiveOf env horizonY obj.y < 0 ∨
        FRun.perspectiveOf env horizonY obj.y > 6/5
    · simp [h]
    · simp [h]
  · intro p hp
    unfold FRun.getProjection at hp
    by_cases h : FRun.perspectiveOf env horizonY obj.y < 0 ∨
        FRun.perspectiveOf env horizonY obj.y > 6/5
    · simp [h] at hp
    · simp [h] at hp
      refine ⟨?_, ?_, ?_⟩ <;>
        simp [← hp, FRun.roadWidthAt]

unseal Rat.add Rat.mul Rat.inv Rat.sub in
/-- C2 witness: a concrete object at perspective 7/9 is projected with the
exact sizes and screen x the claim states. -/
theorem FRun.c2_projection_witness :
    (FRun.getProjection
        { gameWidth := 1000, gameHeight := 600, trackTopWidth := 1/10,
          trackBottomWidth := 9/10, roadSpeedBase := 0 } 0
        { x := 0, y := 520, initialWidth := 80, initialHeight := 40,
          color := "#2563eb", type := FRun.ObjType.obstacle } 240 = none ↔
      FRun.perspectiveOf
        { gameWidth := 1000, gameHeight := 600, trackTopWidth := 1/10,
          trackBottomWidth := 9/10, roadSpeedBase := 0 } 240 520 < 0 ∨
      FRun.perspectiveOf
        { gameWidth := 1000, gameHeight := 600, trackTopWidth := 1/10,
          trackBottomWidth := 9/10, roadSpeedBase := 0 } 240 520 > 6/5) ∧
    ((FRun.Proj.mk 500 520 (560/9) (280/9) (7/9)).width
      = 80 * FRun.perspectiveOf
        { gameWidth := 1000, gameHeight := 600, trackTopWidth := 1/10,
          trackBottomWidth := 9/10, roadSpeedBase := 0 } 240 520 ∧
     (FRun.Proj.mk 500 520 (560/9) (280/9) (7/9)).height
      = 40 * FRun.perspectiveOf
        { gameWidth := 1000, gameHeight := 600, trackTopWidth := 1/10,
          trackBottomWidth := 9/10, roadSpeedBase := 0 } 240 520 ∧
     (FRun.Proj.mk 500 520 (560/9) (280/9) (7/9)).x
      = 1000 / 2
        + (1000 * (1/10) + 1000 * (9/10 - 1/10)
            * FRun.perspectiveOf
              { gameWidth := 1000, gameHeight := 600, trackTopWidth := 1/10,
                trackBottomWidth := 9/10, roadSpeedBase := 0 } 240 520)
          * 0 * (1/4)
        + 0 * (1 - FRun.perspectiveOf
            { gameWidth := 1000, gameHeight := 600, trackTopWidth := 1/10,
              trackBottomWidth := 9/10, roadSpeedBase := 0 } 240 520)) := by
  have h := FRun.c2_projection_spec
    { gameWidth := 1000, gameHeight := 600, trackTopWidth := 1/10,
      trackBottomWidth := 9/10, roadSpeedBase := 0 } 0
    { x := 0, y := 520, initialWidth := 80, initialHeight := 40,
      color := "#2563eb", type := FRun.ObjType.obstacle } 240
  exact ⟨h.1, h.2 (FRun.Proj.mk 500 520 (560/9) (280/9) (7/9)) (by decide)⟩

/-- The reverse splice loop is a filter: survivors are exactly the coins
failing the hit test, in their original order, and the number removed is
the number of hits. -/
theorem FRun.coinPass_eq (hit : FRun.RoadObject → Bool)
    (l : List FRun.RoadObject) :
    FRun.coinPass hit l
      = (l.filter (fun c => !hit c), (l.filter hit).length) := by
  induction l with
  | nil => rfl
  | cons c rest ih =>
    simp only [FRun.coinPass, ih, List.filter_cons]
    cases h : hit c <;> simp [h]

/-- C3: in one tick's coin pass every coin passing the band-and-overlap
test is resolved; each resolved coin adds exactly 1 coin and the fixed
50-point bonus and is removed, every other coin survives in the original
relative order (the surviving list is the filter by the negated test,
hence a sublist), and several coins can resolve in the same tick. -/
theorem FRun.c3_coin_pass (env : FRun.Env) (r : FRun.RandInput)
    (s : FRun.GState) :
    (∀ (hit : FRun.RoadObject → Bool) (l : List FRun.RoadObject),
      FRun.coinPass hit l
        = (l.filter (fun c => !hit c), (l.filter hit).length)) ∧
    (∀ (hit : FRun.RoadObject → Bool) (l : List FRun.RoadObject),
      (FRun.coinPass hit l).1.Sublist l) ∧
    (FRun.collides env r s = false →
      (FRun.tick env r s).state.coinsList
        = (FRun.coinsStep1 env r s).filter
            (fun c => !FRun.coinHit env (FRun.playerStep env s)
                s.roadCurvature s.horizonY c) ∧
      (FRun.tick env r s).state.coins
        = s.coins + ((FRun.coinsStep1 env r s).filter
            (FRun.coinHit env (FRun.playerStep env s)
              s.roadCurvature s.horizonY)).length ∧
      (FRun.tick env r s).state.score
        = s.score + 50 * (((FRun.coinsStep1 env r s).filter
            (FRun.coinHit env (FRun.playerStep env s)
              s.roadCurvature s.horizonY)).length : ℚ) + 1/2) := by
  refine ⟨FRun.coinPass_eq, ?_, ?_⟩
  · intro hit l
    rw [FRun.coinPass_eq]
    exact List.filter_sublist l
  · intro h
    simp only [FRun.tick, h, Bool.false_eq_true, if_false]
    refine ⟨?_, ?_, ?_⟩ <;>
      simp [FRun.coinRes, FRun.coinsAfter, FRun.scoreAfter,
        FRun.coinPass_eq]

unseal Rat.add Rat.mul Rat.inv Rat.sub in
/-- C3 witness: with two coins straight ahead and no obstacle, the tick
resolves both, leaving no coin, 2 coins collected and a score of 100.5. -/
theorem FRun.c3_coin_pass_witness :
    ((FRun.tick FRun.envW FRun.noRand FRun.stCoins).state.coinsList
      = (FRun.coinsStep1 FRun.envW FRun.noRand FRun.stCoins).filter
          (fun c => !FRun.coinHit FRun.envW
              (FRun.playerStep FRun.envW FRun.stCoins)
              FRun.stCoins.roadCurvature FRun.stCoins.horizonY c) ∧
     (FRun.tick FRun.envW FRun.noRand FRun.stCoins).state.coins
      = FRun.stCoins.coins
        + ((FRun.coinsStep1 FRun.envW FRun.noRand FRun.stCoins).filter
            (FRun.coinHit FRun.envW (FRun.playerStep FRun.envW FRun.stCoins)
              FRun.stCoins.roadCurvature FRun.stCoins.horizonY)).length ∧
     (FRun.tick FRun.envW FRun.noRand FRun.stCoins).state.score
      = FRun.stCoins.score
        + 50 * (((FRun.coinsStep1 FRun.envW FRun.noRand FRun.stCoins).filter
            (FRun.coinHit FRun.envW (FRun.playerStep FRun.envW FRun.stCoins)
              FRun.stCoins.roadCurvature FRun.stCoins.horizonY)).length : ℚ)
        + 1/2) ∧
    (FRun.tick FRun.envW FRun.noRand FRun.stCoins).state.coins = 2 ∧
    (FRun.tick FRun.envW FRun.noRand FRun.stCoins).state.coinsList = [] ∧
    (FRun.tick FRun.envW FRun.noRand FRun.stCoins).state.score = 201/2 :=
  ⟨(FRun.c3_coin_pass FRun.envW FRun.noRand FRun.stCoins).2.2 (by decide),
   by decide, by decide, by decide⟩

/-- C7: the lateral position is clamped into [-1.8, 1.8] before any use:
the clamp lands in the interval for every input, the player box that the
tick draws and collides against is built from the clamped value, and the
obstacle scan uses exactly that box. -/
theorem FRun.c7_car_clamped (env : FRun.Env) (r : FRun.RandInput)
    (s : FRun.GState) :
    (∀ x : ℚ, -(9/5) ≤ FRun.clampCarX x ∧ FRun.clampCarX x ≤ 9/5) ∧
    -(9/5) ≤ FRun.clampCarX s.carX ∧ FRun.clampCarX s.carX ≤ 9/5 ∧
    FRun.playerStep env s = FRun.playerBox env (FRun.clampCarX s.carX) ∧
    FRun.collides env r s
      = (FRun.obstaclesStep env r s).any
          (FRun.obsHit env (FRun.playerBox env (FRun.clampCarX s.carX))
            s.roadCurvature s.horizonY) := by
  have key : ∀ x : ℚ, -(9/5) ≤ FRun.clampCarX x ∧ FRun.clampCarX x ≤ 9/5 := by
    intro x
    unfold FRun.clampCarX
    constructor
    · exact le_max_left _ _
    · exact max_le (by norm_num) (min_le_left _ _)
  exact ⟨key, (key s.carX).1, (key s.carX).2, rfl, rfl⟩

/-- C9: each tick moves the curvature by exactly one hundredth of the
distance to the retargeted direction times 200; the step size is that
fraction of the remaining distance, and a curvature unequal to the
target never reaches it in one step. -/
theorem FRun.c9_curvature_easing (env : FRun.Env) (r : FRun.RandInput)
    (s : FRun.GState) (c t : ℚ) :
    FRun.easeCurvature c t = c + (t - c) * (1/100) ∧
    |FRun.easeCurvature c t - c| = |t - c| * (1/100) ∧
    (c ≠ t → FRun.easeCurvature c t ≠ t) ∧
    (FRun.collides env r s = false →
      (FRun.tick env r s).state.roadCurvature
        = FRun.easeCurvature s.roadCurvature
            ((FRun.curveTimerStep r s).2 * 200)) := by
  refine ⟨rfl, ?_, ?_, ?_⟩
  · unfold FRun.easeCurvature
    rw [show c + (t - c) * (1/100) - c = (t - c) * (1/100) by ring,
      abs_mul]
    norm_num
  · intro hne heq
    unfold FRun.easeCurvature at heq
    apply hne
    linarith
  · intro h
    simp only [FRun.tick, h, Bool.false_eq_true, if_false]

unseal Rat.add Rat.mul Rat.inv Rat.sub in
/-- C9 witness: from curvature 0 with target 200 the step is 2, the step
size is one hundredth of the distance, the target is not reached, and a
concrete collision-free tick updates the curvature by the easing rule. -/
theorem FRun.c9_curvature_easing_witness :
    (FRun.easeCurvature 0 200 = 0 + (200 - 0) * (1/100) ∧
     |FRun.easeCurvature 0 200 - 0| = |200 - 0| * (1/100) ∧
     FRun.easeCurvature 0 200 ≠ 200 ∧
     (FRun.tick FRun.envW FRun.noRand FRun.stRun).state.roadCurvature
      = FRun.easeCurvature FRun.stRun.roadCurvature
          ((FRun.curveTimerStep FRun.noRand FRun.stRun).2 * 200)) ∧
    FRun.easeCurvature 0 200 = 2 := by
  have h := FRun.c9_curvature_easing FRun.envW FRun.noRand FRun.stRun 0 200
  exact ⟨⟨h.1, h.2.1, h.2.2.1 (by decide), h.2.2.2 (by decide)⟩, by decide⟩

/-- Scenery advance and recycling composed into a single map over the
original list: objects past gameHeight + 200 after the advance get depth
horizonY - 200, the rest keep their advanced depth. -/
theorem FRun.sceneryStep_eq_map (env : FRun.Env) (s : FRun.GState) :
    FRun.sceneryStep env s = s.scenery.map fun o =>
      if o.y + s.speed > env.gameHeight + 200
      then { o with y := s.horizonY - 200 }
      else { o with y := o.y + s.speed } := by
  unfold FRun.sceneryStep
  rw [List.map_map]
  rfl

/-- One tick never adds to or removes from the scenery list, whether or
not the tick ends in a collision. -/
theorem FRun.tick_scenery_length (env : FRun.Env) (r : FRun.RandInput)
    (s : FRun.GState) :
    (FRun.tick env r s).state.scenery.length = s.scenery.length := by
  by_cases h : FRun.collides env r s <;>
    simp [FRun.tick, h, FRun.sceneryStep]

/-- A stopped or running session never changes its scenery count. -/
theorem FRun.runSession_scenery_length (env : FRun.Env)
    (rs : ℕ → FRun.RandInput) (s0 : FRun.GState) (n : ℕ) :
    (FRun.runSession env rs s0 n).st.scenery.length
      = s0.scenery.length := by
  induction n with
  | zero => rfl
  | succ n ih =>
    show (FRun.sessStep env (rs n) (FRun.runSession env rs s0 n)).st.scenery.length = _
    unfold FRun.sessStep
    by_cases h : (FRun.runSession env rs s0 n).over
    · simp [h, ih]
    · simp [h, FRun.tick_scenery_length, ih]

/-- C8: every tick leaves the scenery list the same length, objects past
the far cleanup threshold being recycled in place to just behind the
horizon; over any number of scheduler slots the count never changes, and
a fresh session starts with exactly the 20 pre-populated objects. -/
theorem FRun.c8_scenery_invariant (env : FRun.Env) (r : FRun.RandInput)
    (s : FRun.GState) (rs : ℕ → FRun.RandInput) (s0 : FRun.GState)
    (n : ℕ) (rnd : ℕ → ℚ) (sp : FRun.GState) :
    FRun.sceneryStep env s = (s.scenery.map fun o =>
      if o.y + s.speed > env.gameHeight + 200
      then { o with y := s.horizonY - 200 }
      else { o with y := o.y + s.speed }) ∧
    (FRun.tick env r s).state.scenery.length = s.scenery.length ∧
    (FRun.runSession env rs s0 n).st.scenery.length
      = s0.scenery.length ∧
    (FRun.initGame env rnd sp).scenery.length = 20 :=
  ⟨FRun.sceneryStep_eq_map env s, FRun.tick_scenery_length env r s,
   FRun.runSession_scenery_length env rs s0 n, rfl⟩

/-- A tick fires the terminal callback exactly when it stops scheduling:
one gameOver event when the obstacle scan hits, none otherwise. -/
theorem FRun.tick_gameOver_count (env : FRun.Env) (r : FRun.RandInput)
    (s : FRun.GState) :
    (FRun.tick env r s).events.countP FRun.isGameOverEvt
      = if (FRun.tick env r s).cont then 0 else 1 := by
  by_cases h : FRun.collides env r s
  · simp [FRun.tick, h, FRun.isGameOverEvt]
  · simp only [FRun.tick, h, Bool.false_eq_true, if_false]
    by_cases hs : (FRun.scoreAfter env r s).floor.tmod 10 = 0 <;>
      simp [hs, FRun.isGameOverEvt]

/-- Across a session the number of gameOver events is 0 while the loop is
running and 1 once it has stopped. -/
theorem FRun.runSession_gameOver_count (env : FRun.Env)
    (rs : ℕ → FRun.RandInput) (s0 : FRun.GState) (n : ℕ) :
    (FRun.runSession env rs s0 n).events.countP FRun.isGameOverEvt
      = if (FRun.runSession env rs s0 n).over then 1 else 0 := by
  induction n with
  | zero => rfl
  | succ n ih =>
    show (FRun.sessStep env (rs n) (FRun.runSession env rs s0 n)).events.countP _
      = if (FRun.sessStep env (rs n) (FRun.runSession env rs s0 n)).over then 1 else 0
    unfold FRun.sessStep
    by_cases h : (FRun.runSession env rs s0 n).over
    · simp [h, ih]
    · simp only [h, Bool.false_eq_true, if_false, List.countP_append]
      rw [ih, FRun.tick_gameOver_count]
      by_cases hc : (FRun.tick env (rs n) (FRun.runSession env rs s0 n).st).cont <;>
        simp [h, hc]

/-- C1: a tick whose obstacle scan hits fires gameOver with the floored
score and current coin count, schedules no further frame, and leaves
every later effect unapplied: the coin pass (the coin list is still the
pre-pass list, coins and score unchanged), the lateral input and
centrifugal pull (carX is just the clamped value), and the curvature and
timer updates.  Across a session, gameOver fires at most once, and
exactly once as soon as a running session's tick collides. -/
theorem FRun.c1_game_over_once (env : FRun.Env) (r : FRun.RandInput)
    (s : FRun.GState) (rs : ℕ → FRun.RandInput) (s0 : FRun.GState)
    (n : ℕ) :
    (FRun.collides env r s = true →
      (FRun.tick env r s).events
        = [FRun.Evt.gameOver s.score.floor s.coins] ∧
      (FRun.tick env r s).cont = false ∧
      (FRun.tick env r s).state.coinsList = FRun.coinsStep1 env r s ∧
      (FRun.tick env r s).state.coins = s.coins ∧
      (FRun.tick env r s).state.score = s.score ∧
      (FRun.tick env r s).state.carX = FRun.clampCarX s.carX ∧
      (FRun.tick env r s).state.roadCurvature = s.roadCurvature ∧
      (FRun.tick env r s).state.curveTimer = s.curveTimer ∧
      (FRun.tick env r s).state.curveDirection = s.curveDirection) ∧
    ((FRun.runSession env rs s0 n).events.countP FRun.isGameOverEvt ≤ 1) ∧
    ((FRun.runSession env rs s0 n).over = false →
      FRun.collides env (rs n) (FRun.runSession env rs s0 n).st = true →
      (FRun.runSession env rs s0 (n+1)).over = true ∧
      (FRun.runSession env rs s0 (n+1)).events.countP
        FRun.isGameOverEvt = 1) := by
  refine ⟨?_, ?_, ?_⟩
  · intro h
    refine ⟨?_, ?_, ?_, ?_, ?_, ?_, ?_, ?_, ?_⟩ <;> simp [FRun.tick, h]
  · rw [FRun.runSession_gameOver_count]
    by_cases h : (FRun.runSession env rs s0 n).over <;> simp [h]
  · intro hov hc
    have hstep : FRun.runSession env rs s0 (n+1)
        = FRun.sessStep env (rs n) (FRun.runSession env rs s0 n) := rfl
    have hcont : (FRun.tick env (rs n) (FRun.runSession env rs s0 n).st).cont
        = false := by
      simp [FRun.tick, hc]
    constructor
    · rw [hstep]
      unfold FRun.sessStep
      simp [hov, hcont]
    · rw [FRun.runSession_gameOver_count]
      rw [hstep]
      unfold FRun.sessStep
      simp [hov, hcont]

unseal Rat.add Rat.mul Rat.inv Rat.sub in
/-- C1 witness: a concrete state one obstacle in front of the player
collides, firing gameOver 0 0, scheduling nothing further, leaving the
later effects unapplied, and the one-slot session records exactly one
gameOver event. -/
theorem FRun.c1_game_over_once_witness :
    ((FRun.tick FRun.envW FRun.noRand FRun.stCollide).events
        = [FRun.Evt.gameOver FRun.stCollide.score.floor FRun.stCollide.coins] ∧
      (FRun.tick FRun.envW FRun.noRand FRun.stCollide).cont = false ∧
      (FRun.tick FRun.envW FRun.noRand FRun.stCollide).state.coinsList
        = FRun.coinsStep1 FRun.envW FRun.noRand FRun.stCollide ∧
      (FRun.tick FRun.envW FRun.noRand FRun.stCollide).state.coins
        = FRun.stCollide.coins ∧
      (FRun.tick FRun.envW FRun.noRand FRun.stCollide).state.score
        = FRun.stCollide.score ∧
      (FRun.tick FRun.envW FRun.noRand FRun.stCollide).state.carX
        = FRun.clampCarX FRun.stCollide.carX ∧
      (FRun.tick FRun.envW FRun.noRand FRun.stCollide).state.roadCurvature
        = FRun.stCollide.roadCurvature ∧
      (FRun.tick FRun.envW FRun.noRand FRun.stCollide).state.curveTimer
        = FRun.stCollide.curveTimer ∧
      (FRun.tick FRun.envW FRun.noRand FRun.stCollide).state.curveDirection
        = FRun.stCollide.curveDirection) ∧
    ((FRun.runSession FRun.envW (fun _ => FRun.noRand) FRun.stCollide 1).over
        = true ∧
      (FRun.runSession FRun.envW (fun _ => FRun.noRand) FRun.stCollide
          1).events.countP FRun.isGameOverEvt = 1) := by
  have h := FRun.c1_game_over_once FRun.envW FRun.noRand FRun.stCollide
    (fun _ => FRun.noRand) FRun.stCollide 0
  exact ⟨h.1 (by decide), h.2.2 (by decide) (by decide)⟩

/-- C5 (amended): a surviving tick fires the score callback exactly when
the floored end-of-tick score is a multiple of 10, with that floored
score and the current coin count; a tick never fires it more than once.
This is per tick, not per multiple: with the 0.5 increment a multiple of
10 stays the floored score for two consecutive ticks, each firing. -/
theorem FRun.c5_score_update_per_tick (env : FRun.Env)
    (r : FRun.RandInput) (s : FRun.GState) :
    (FRun.tick env r s).events.length ≤ 1 ∧
    (FRun.collides env r s = false →
      (FRun.tick env r s).events
        = if (FRun.scoreAfter env r s).floor.tmod 10 = 0
          then [FRun.Evt.scoreUpdate (FRun.scoreAfter env r s).floor
                  (FRun.coinsAfter env r s)]
          else []) := by
  constructor
  · by_cases h : FRun.collides env r s
    · simp [FRun.tick, h]
    · simp only [FRun.tick, h, Bool.false_eq_true, if_false]
      by_cases hs : (FRun.scoreAfter env r s).floor.tmod 10 = 0 <;>
        simp [hs]
  · intro h
    simp only [FRun.tick, h, Bool.false_eq_true, if_false]

set_option maxRecDepth 100000 in
unseal Rat.add Rat.mul Rat.inv Rat.sub in
/-- C5 counterexample: in a fresh session with nothing spawning, the
score callback for the multiple 10 fires twice (score reaches 10.0 on
tick 20 and 10.5 on tick 21, both flooring to 10), so a reached multiple
does not correspond to exactly one invocation. -/
theorem FRun.c5_counterexample :
    ((FRun.runSession FRun.envW (fun _ => FRun.noRand) FRun.stRun
        21).events.countP
      (fun e => decide (e = FRun.Evt.scoreUpdate 10 0))) = 2 := by
  decide

set_option maxRecDepth 100000 in
unseal Rat.add Rat.mul Rat.inv Rat.sub in
/-- C5 witness: on the twentieth tick of the concrete session the score
reaches 10.0 and the callback fires once with score 10 and 0 coins. -/
theorem FRun.c5_score_update_witness :
    ((FRun.tick FRun.envW FRun.noRand
        (FRun.runSession FRun.envW (fun _ => FRun.noRand) FRun.stRun
          19).st).events.length ≤ 1 ∧
     (FRun.tick FRun.envW FRun.noRand
        (FRun.runSession FRun.envW (fun _ => FRun.noRand) FRun.stRun
          19).st).events
      = [FRun.Evt.scoreUpdate 10 0]) := by
  have h := FRun.c5_score_update_per_tick FRun.envW FRun.noRand
    (FRun.runSession FRun.envW (fun _ => FRun.noRand) FRun.stRun 19).st
  refine ⟨h.1, ?_⟩
  rw [h.2 (by decide)]
  decide

/-- C4 (amended): the initializer produces horizon Y at 40% of viewport
height, 12 evenly spaced road lines from the horizon down, empty
obstacle and coin lists, 20 scenery objects all on the two roadsides at
randomized depths, a centered car, zero curvature and the base speed —
but it spreads the previous state, so the curve timer, curve direction,
key map and touch origin are carried over from the prior session rather
than reset. -/
theorem FRun.c4_init_game (env : FRun.Env) (rnd : ℕ → ℚ)
    (s : FRun.GState) :
    (FRun.initGame env rnd s).horizonY = env.gameHeight * (2/5) ∧
    (FRun.initGame env rnd s).carX = 0 ∧
    (FRun.initGame env rnd s).roadCurvature = 0 ∧
    (FRun.initGame env rnd s).score = 0 ∧
    (FRun.initGame env rnd s).coins = 0 ∧
    (FRun.initGame env rnd s).speed = env.roadSpeedBase ∧
    (FRun.initGame env rnd s).obstacles = [] ∧
    (FRun.initGame env rnd s).coinsList = [] ∧
    (FRun.initGame env rnd s).roadLines.length = 12 ∧
    (FRun.initGame env rnd s).roadLines
      = ((List.range 12).map fun i =>
          { y := env.gameHeight * (2/5)
              + i * (env.gameHeight - env.gameHeight * (2/5)) / 12 }) ∧
    (FRun.initGame env rnd s).scenery.length = 20 ∧
    (∀ o ∈ (FRun.initGame env rnd s).scenery,
      (o.x = -(5/2) ∨ o.x = 5/2) ∧ o.type = FRun.ObjType.scenery ∧
      (∃ k : ℕ, o.y = env.gameHeight * (2/5) + rnd k * env.gameHeight)) ∧
    (FRun.initGame env rnd s).curveTimer = s.curveTimer ∧
    (FRun.initGame env rnd s).curveDirection = s.curveDirection ∧
    (FRun.initGame env rnd s).keys = s.keys ∧
    (FRun.initGame env rnd s).touchX = s.touchX := by
  refine ⟨rfl, rfl, rfl, rfl, rfl, rfl, rfl, rfl, rfl, rfl, rfl, ?_,
    rfl, rfl, rfl, rfl⟩
  intro o ho
  simp only [FRun.initGame, FRun.sceneryInit, List.mem_flatMap,
    List.mem_range] at ho
  obtain ⟨i, _, ho⟩ := ho
  simp only [List.mem_cons, List.not_mem_nil, or_false] at ho
  rcases ho with h | h <;> subst h
  · exact ⟨Or.inl rfl, rfl, 2*i, rfl⟩
  · exact ⟨Or.inr rfl, rfl, 2*i+1, rfl⟩

unseal Rat.add Rat.mul Rat.inv Rat.sub in
/-- C4 counterexample: with identical viewport and identical random
draws, initializing over two prior states that differ only in the curve
timer yields different results — prior-session state leaks through the
initializer, so it is not a fresh state independent of the previous
session (the carried curve timer of 99 survives into the new session). -/
theorem FRun.c4_counterexample :
    FRun.initGame FRun.envW (fun _ => 0)
        { FRun.mountState with curveTimer := 99 }
      ≠ FRun.initGame FRun.envW (fun _ => 0) FRun.mountState ∧
    (FRun.initGame FRun.envW (fun _ => 0)
        { FRun.mountState with curveTimer := 99 }).curveTimer = 99 := by
  constructor
  · intro h
    have := congrArg FRun.GState.curveTimer h
    simp [FRun.initGame, FRun.mountState] at this
  · rfl

unseal Rat.add Rat.mul Rat.inv Rat.sub in
/-- C4 witness: the amended characterization evaluated at the concrete
environment, zero random stream and the mount state. -/
theorem FRun.c4_init_game_witness :
    (FRun.initGame FRun.envW (fun _ => 0) FRun.mountState).horizonY
      = FRun.envW.gameHeight * (2/5) ∧
    (FRun.initGame FRun.envW (fun _ => 0) FRun.mountState).roadLines.length
      = 12 ∧
    (FRun.initGame FRun.envW (fun _ => 0) FRun.mountState).scenery.length
      = 20 ∧
    (∀ o ∈ (FRun.initGame FRun.envW (fun _ => 0) FRun.mountState).scenery,
      (o.x = -(5/2) ∨ o.x = 5/2) ∧ o.type = FRun.ObjType.scenery ∧
      (∃ k : ℕ, o.y = FRun.envW.gameHeight * (2/5)
          + (fun _ => (0:ℚ)) k * FRun.envW.gameHeight)) ∧
    (FRun.initGame FRun.envW (fun _ => 0) FRun.mountState).curveTimer
      = FRun.mountState.curveTimer := by
  have h := FRun.c4_init_game FRun.envW (fun _ => 0) FRun.mountState
  exact ⟨h.1, h.2.2.2.2.2.2.2.2.1, h.2.2.2.2.2.2.2.2.2.2.1,
    h.2.2.2.2.2.2.2.2.2.2.2.1, h.2.2.2.2.2.2.2.2.2.2.2.2.1⟩

/-- One easing step from inside the open interval (-200, 200) toward a
target of plus or minus 200 stays strictly inside the interval. -/
theorem FRun.ease_abs_lt (c d : ℚ) (hc : |c| < 200)
    (hd : d = 1 ∨ d = -1) :
    |FRun.easeCurvature c (d * 200)| < 200 := by
  have h := abs_lt.mp hc
  unfold FRun.easeCurvature
  rcases hd with h1 | h1 <;> subst h1 <;>
    exact abs_lt.mpr ⟨by linarith [h.1, h.2], by linarith [h.1, h.2]⟩

/-- Every state reachable from session initialization keeps its curvature
strictly inside (-200, 200) and its curve direction in {1, -1}. -/
theorem FRun.reach_inv (env : FRun.Env) (s : FRun.GState)
    (h : FRun.Reach env s) :
    |s.roadCurvature| < 200 ∧
    (s.curveDirection = 1 ∨ s.curveDirection = -1) := by
  induction h with
  | init rnd =>
    constructor
    · show |(0:ℚ)| < 200
      norm_num
    · exact Or.inl rfl
  | step r s hs ih =>
    by_cases hc : FRun.collides env r s
    · simpa [FRun.tick, hc] using ih
    · have hd : (FRun.curveTimerStep r s).2 = 1 ∨
          (FRun.curveTimerStep r s).2 = -1 := by
        unfold FRun.curveTimerStep
        by_cases ht : s.curveTimer - 1 ≤ 0
        · rw [if_pos ht]
          by_cases hr : r.dirRoll > 1/2
          · left
            show (if r.dirRoll > 1/2 then (1:ℚ) else -1) = 1
            rw [if_pos hr]
          · right
            show (if r.dirRoll > 1/2 then (1:ℚ) else -1) = -1
            rw [if_neg hr]
        · rw [if_neg ht]
          exact ih.2
      simp only [FRun.tick, hc, Bool.false_eq_true, if_false]
      exact ⟨FRun.ease_abs_lt s.roadCurvature _ ih.1 hd, hd⟩

/-- C10: starting from a fresh session (curvature 0), any number of
ticks, with any random draws and inputs, keeps the absolute curvature
strictly below the target amplitude 200. -/
theorem FRun.c10_curvature_bound (env : FRun.Env) (s : FRun.GState)
    (h : FRun.Reach env s) :
    |s.roadCurvature| < 200 :=
  (FRun.reach_inv env s h).1

/-- C10 witness: the bound at the concrete freshly initialized state. -/
theorem FRun.c10_curvature_bound_witness :
    |(FRun.initGame FRun.envW (fun _ => 0)
        FRun.mountState).roadCurvature| < 200 :=
  FRun.c10_curvature_bound FRun.envW _ (FRun.Reach.init (fun _ => 0))

/-- Inserting an element into a list whose appended last element scores
strictly below it keeps that last element last. -/
theorem FRun.orderedInsert_append_low (a e : FRun.ScoreEntry)
    (m : List FRun.ScoreEntry) (h : e.score < a.score) :
    (m ++ [e]).orderedInsert FRun.descBy a
      = m.orderedInsert FRun.descBy a ++ [e] := by
  induction m with
  | nil =>
    simp only [List.nil_append, List.orderedInsert]
    rw [if_pos (show FRun.descBy a e from le_of_lt h)]
    rfl
  | cons b m ih =>
    show (if FRun.descBy a b then a :: b :: (m ++ [e])
          else b :: List.orderedInsert FRun.descBy a (m ++ [e]))
        = (if FRun.descBy a b then a :: b :: m
          else b :: List.orderedInsert FRun.descBy a m) ++ [e]
    by_cases hb : FRun.descBy a b
    · rw [if_pos hb, if_pos hb]
      rfl
    · rw [if_neg hb, if_neg hb, ih]
      rfl

/-- Sorting a list with an element strictly below every other appended at
its end sorts the rest and keeps that element at the end. -/
theorem FRun.insertionSort_append_low (e : FRun.ScoreEntry)
    (l : List FRun.ScoreEntry) (h : ∀ a ∈ l, e.score < a.score) :
    (l ++ [e]).insertionSort FRun.descBy
      = l.insertionSort FRun.descBy ++ [e] := by
  induction l with
  | nil => rfl
  | cons a l ih =>
    show List.orderedInsert FRun.descBy a
        ((l ++ [e]).insertionSort FRun.descBy)
      = List.orderedInsert FRun.descBy a (l.insertionSort FRun.descBy)
        ++ [e]
    rw [ih fun b hb => h b (List.mem_cons_of_mem a hb)]
    exact FRun.orderedInsert_append_low a e _ (h a (List.mem_cons_self a l))

/-- An element sitting at a position below the truncation cap survives
the truncation. -/
theorem FRun.mem_take_append {α : Type} (a : α) (l₁ l₂ : List α)
    (cap : ℕ) (h : l₁.length < cap) :
    a ∈ (l₁ ++ a :: l₂).take cap := by
  induction l₁ generalizing cap with
  | nil =>
    cases cap with
    | zero => omega
    | succ c =>
      rw [List.nil_append, List.take_succ_cons]
      exact List.mem_cons_self a _
  | cons b l₁ ih =>
    cases cap with
    | zero => omega
    | succ c =>
      rw [List.cons_append, List.take_succ_cons]
      exact List.mem_cons_of_mem b (ih c (by simpa using h))

/-- When fewer than cap entries score at least the new entry's score, the
new entry survives the sort-and-truncate. -/
theorem FRun.insert_take_mem (e : FRun.ScoreEntry)
    (db : List FRun.ScoreEntry) (cap : ℕ)
    (h : db.countP (fun a => decide (e.score ≤ a.score)) < cap) :
    e ∈ ((db ++ [e]).insertionSort FRun.descBy).take cap := by
  have hperm : List.Perm ((db ++ [e]).insertionSort FRun.descBy)
      (db ++ [e]) :=
    List.perm_insertionSort FRun.descBy _
  have hmem : e ∈ (db ++ [e]).insertionSort FRun.descBy :=
    hperm.mem_iff.mpr (by simp)
  obtain ⟨l₁, l₂, hsplit⟩ := List.append_of_mem hmem
  have hsorted : ((db ++ [e]).insertionSort FRun.descBy).Pairwise
      FRun.descBy := List.sorted_insertionSort FRun.descBy _
  have hl₁ : ∀ x ∈ l₁, FRun.descBy x e := by
    rw [hsplit] at hsorted
    intro x hx
    exact (List.pairwise_append.mp hsorted).2.2 x hx e
      (List.mem_cons_self _ _)
  have hcountm : ((db ++ [e]).insertionSort FRun.descBy).countP
      (fun a => decide (e.score ≤ a.score))
      = db.countP (fun a => decide (e.score ≤ a.score)) + 1 := by
    rw [hperm.countP_eq]
    simp [List.countP_append]
  have hcountsplit : ((db ++ [e]).insertionSort FRun.descBy).countP
      (fun a => decide (e.score ≤ a.score))
      = l₁.countP (fun a => decide (e.score ≤ a.score)) + 1
        + l₂.countP (fun a => decide (e.score ≤ a.score)) := by
    rw [hsplit]
    simp [List.countP_append, List.countP_cons]
    omega
  have hl₁len : l₁.countP (fun a => decide (e.score ≤ a.score))
      = l₁.length := by
    rw [List.countP_eq_length]
    intro x hx
    simpa [FRun.descBy] using hl₁ x hx
  have hlt : l₁.length < cap := by omega
  rw [hsplit]
  exact FRun.mem_take_append e l₁ l₂ cap hlt

/-- When the board is full and every existing entry scores above the new
one, the sort-and-truncate drops exactly the new entry: membership is
that of the original board. -/
theorem FRun.insert_take_mem_iff (e : FRun.ScoreEntry)
    (db : List FRun.ScoreEntry) (cap : ℕ) (hlen : db.length = cap)
    (hlow : ∀ a ∈ db, e.score < a.score) (x : FRun.ScoreEntry) :
    x ∈ ((db ++ [e]).insertionSort FRun.descBy).take cap ↔ x ∈ db := by
  rw [FRun.insertionSort_append_low e db hlow]
  have hslen : (db.insertionSort FRun.descBy).length = cap := by
    rw [(List.perm_insertionSort FRun.descBy db).length_eq]
    exact hlen
  rw [← hslen, List.take_left]
  exact (List.perm_insertionSort FRun.descBy db).mem_iff

/-- C6: addScore returns (and persists) a list sorted descending by
score, never longer than the cap; the stored name is the upper-cased
10-character truncation of the given name, PILOTO when the name is
empty; the new entry carrying the given score is in the result whenever
fewer than cap existing entries score at least as much; and with the
board at the cap and the new score below every existing score, the
membership of the stored list is unchanged. -/
theorem FRun.c6_add_score (cap newId : ℕ) (now : String)
    (db : List FRun.ScoreEntry) (name : String) (score : ℤ) :
    (FRun.addScore cap newId now db name score).Pairwise FRun.descBy ∧
    (FRun.addScore cap newId now db name score).length ≤ cap ∧
    FRun.storedName "" = "PILOTO" ∧
    (name.data ≠ [] →
      FRun.storedName name
        = String.mk ((name.data.map Char.toUpper).take 10)) ∧
    ((db.countP fun a => decide (score ≤ a.score)) < cap →
      FRun.ScoreEntry.mk newId (FRun.storedName name) score now
        ∈ FRun.addScore cap newId now db name score) ∧
    (db.length = cap → (∀ a ∈ db, score < a.score) →
      ∀ x, x ∈ FRun.addScore cap newId now db name score ↔ x ∈ db) := by
  refine ⟨?_, ?_, rfl, ?_, ?_, ?_⟩
  · exact List.Pairwise.sublist (List.take_sublist _ _)
      (List.sorted_insertionSort FRun.descBy _)
  · exact List.length_take_le _ _
  · intro hne
    unfold FRun.storedName
    rw [if_neg]
    intro heq
    apply hne
    have h2 := congrArg String.data heq
    simpa using h2
  · intro hrank
    exact FRun.insert_take_mem _ db cap hrank
  · intro hlen hlow x
    exact FRun.insert_take_mem_iff _ db cap hlen hlow x

/-- C6 witness: with a cap of 3 and two stored entries, adding an empty
name with score 10 stores PILOTO and the entry ranks in; with the cap at
2 the same addition is dropped and the stored membership is unchanged. -/
theorem FRun.c6_add_score_witness :
    (FRun.ScoreEntry.mk 7 (FRun.storedName "") 10 "d"
      ∈ FRun.addScore 3 7 "d"
          [FRun.ScoreEntry.mk 0 "AA" 100 "d",
           FRun.ScoreEntry.mk 1 "BB" 50 "d"] "" 10) ∧
    FRun.storedName "" = "PILOTO" ∧
    (∀ x, x ∈ FRun.addScore 2 7 "d"
        [FRun.ScoreEntry.mk 0 "AA" 100 "d",
         FRun.ScoreEntry.mk 1 "BB" 50 "d"] "" 10 ↔
      x ∈ [FRun.ScoreEntry.mk 0 "AA" 100 "d",
           FRun.ScoreEntry.mk 1 "BB" 50 "d"]) ∧
    (FRun.addScore 2 7 "d"
        [FRun.ScoreEntry.mk 0 "AA" 100 "d",
         FRun.ScoreEntry.mk 1 "BB" 50 "d"] "" 10).length ≤ 2 :=
  ⟨(FRun.c6_add_score 3 7 "d"
      [FRun.ScoreEntry.mk 0 "AA" 100 "d",
       FRun.ScoreEntry.mk 1 "BB" 50 "d"] "" 10).2.2.2.2.1 (by decide),
   (FRun.c6_add_score 3 7 "d"
      [FRun.ScoreEntry.mk 0 "AA" 100 "d",
       FRun.ScoreEntry.mk 1 "BB" 50 "d"] "" 10).2.2.1,
   (FRun.c6_add_score 2 7 "d"
      [FRun.ScoreEntry.mk 0 "AA" 100 "d",
       FRun.ScoreEntry.mk 1 "BB" 50 "d"] "" 10).2.2.2.2.2 (by decide)
     (by decide),
   (FRun.c6_add_score 2 7 "d"
      [FRun.ScoreEntry.mk 0 "AA" 100 "d",
       FRun.ScoreEntry.mk 1 "BB" 50 "d"] "" 10).2.1⟩
